import Mathlib

/-!
Verification development for the DURRIDGE radon measurement simulator
(`src/radon_sim_webapp.py`).  The script's core is embedded shallowly:

* the six-isotope registry (`halflives`, `dconst`),
* the stochastic decay engine `ProgenyDecay` (lines 23-35),
* the unit converter `RAD7_CONC_TO_N` (lines 37-38),
* the module-level simulation loop (lines 97-143) as a step function
  `simStep` folded over the Python `range(0, simtime, dt)` time list,
* the cycle-record construction (lines 119-140) as `aggregateR`.

Randomness is modelled by an oracle: each `ProgenyDecay` call receives a
`Rand`, holding the outcomes of the Bernoulli comparisons
`random.random() < p` of the atom branch (as Booleans, indexed by the
population the loop iterates over) and the value drawn by
`np.random.binomial(Ni, p)` (as a natural number, a function of the
number of trials).  `Rand.Valid` records exactly what the library
guarantees about those outcomes: the atom branch performs one trial per
atom, and a binomial sample never exceeds its number of trials.  The
probability value `p` computed from the half-life — a pure real-number
computation in the source — is embedded separately as `decayP` /
`probUsed` since the counting logic never inspects it, only the sampled
outcomes.  Python integers are embedded as `ℤ`, the real (float)
arithmetic of the cycle records as `ℝ`.
-/

namespace RadonSim

/-- The six isotopes of the modelled decay chain, in chain order
Rn222 → Po218 → Pb214 → Bi214 → Po214 → Pb210. -/
inductive Isotope
  | Rn222
  | Po218
  | Pb214
  | Bi214
  | Po214
  | Pb210
deriving DecidableEq

/-- Half-lives in seconds (source lines 10-17, the `halflives` dict).
The literals are exact decimals, so they live in `ℚ`. -/
def halflives : Isotope → ℚ
  | .Rn222 => 3.3035e5
  | .Po218 => 185.88
  | .Pb214 => 1608
  | .Bi214 => 1194
  | .Po214 => 1.643e-4
  | .Pb210 => 7.0325e8

/-- Decay constants `dconst = {k: np.log(2)/v ...}` (source line 18). -/
noncomputable def dconst (i : Isotope) : ℝ := Real.log 2 / (halflives i : ℝ)

/-- Chamber volume constant `VOLUME = 1e-3` (source line 19). -/
def VOLUME : ℚ := 1e-3

/-- The global time step `dt = 60` seconds (source line 20). -/
def dt : ℕ := 60

/-- The `method` argument of `ProgenyDecay`: per-atom Bernoulli trials or
one binomial draw (source line 23; the default is `'binomial'`). -/
inductive Method
  | atom
  | binomial
deriving DecidableEq

/-- The random outcomes one `ProgenyDecay` call can consume.
`flips n` lists the outcomes of the comparisons `random.random() < p`
performed by the atom branch when the initial population is `n` (the
Python loop `for _ in range(Ni)` runs once per initial atom, so a valid
source supplies exactly `n` outcomes).  `bin n` is the value sampled by
`np.random.binomial(n, p)`; numpy guarantees it lies in `{0, …, n}`. -/
structure Rand where
  flips : ℤ → List Bool
  bin : ℤ → ℕ

/-- What the random library guarantees about a `Rand`: the atom branch
gets one Bernoulli outcome per atom, and a binomial sample is at most
its number of trials. -/
def Rand.Valid (r : Rand) : Prop :=
  (∀ n : ℤ, 0 ≤ n → ((r.flips n).length : ℤ) = n) ∧
    (∀ n : ℤ, 0 ≤ n → ((r.bin n : ℤ)) ≤ n)

/-- A `Rand` whose every Bernoulli outcome is `false` and whose every
binomial sample is `0` (one possible draw of the random library). -/
def zeroRand : Rand where
  flips := fun n => List.replicate n.toNat false
  bin := fun _ => 0

/-- The counting behaviour of `ProgenyDecay(thalf, Ni, dt, method)`
(source lines 23-35), returning `(survivors, decays)`.

Atom branch: `N0 = Ni`, then `for _ in range(Ni): if random.random() < p:
Ni -= 1`, returning `(Ni, N0 - Ni)`; the Bernoulli outcomes come from
`r.flips`.  Binomial branch: `decays = np.random.binomial(Ni, p)`,
returning `(Ni - decays, decays)`; the sample comes from `r.bin`.
`thalf` and `dtArg` determine only the probability `p` handed to the
sampler, embedded separately as `probUsed`; the outcomes themselves are
supplied by `r`. -/
def ProgenyDecay (thalf : ℚ) (Ni : ℤ) (dtArg : ℚ) (method : Method) (r : Rand) :
    ℤ × ℤ :=
  match method with
  | .atom =>
    let N0 := Ni
    let Nf := (r.flips Ni).foldl (fun n b => if b then n - 1 else n) Ni
    (Nf, N0 - Nf)
  | .binomial =>
    let decays := r.bin Ni
    (Ni - (decays : ℤ), (decays : ℤ))

/-- The probability computed at the head of `ProgenyDecay` (source lines
24-25): `tau = thalf / np.log(2); p = 1 / tau * dt`. -/
noncomputable def decayP (thalf dtArg : ℝ) : ℝ :=
  let tau := thalf / Real.log 2
  1 / tau * dtArg

/-- The per-atom probability each sampling branch actually hands to its
sampler: the atom branch (source line 29) uses `p` as computed, the
binomial branch first clamps it by `p = min(1.0, max(0.0, p))` (source
line 33). -/
noncomputable def probUsed (thalf dtArg : ℝ) : Method → ℝ
  | .atom => decayP thalf dtArg
  | .binomial => min 1 (max 0 (decayP thalf dtArg))

/-- Python's `int(...)` on a real value: truncation toward zero. -/
noncomputable def pyInt (x : ℝ) : ℤ := if 0 ≤ x then ⌊x⌋ else ⌈x⌉

/-- `RAD7_CONC_TO_N(ConcBq, decay_const) = int(VOLUME * ConcBq /
decay_const)` (source lines 37-38). -/
noncomputable def RAD7_CONC_TO_N (ConcBq decay_const : ℝ) : ℤ :=
  pyInt ((VOLUME : ℝ) * ConcBq / decay_const)

/-- The six populations of the decay chain (the Python variables
`Rn222 … Pb210`). -/
structure ChainState where
  Rn222 : ℤ
  Po218 : ℤ
  Pb214 : ℤ
  Bi214 : ℤ
  Po214 : ℤ
  Pb210 : ℤ
deriving DecidableEq

/-- The data from which one row of `po_cycle_table` is built (source
lines 130-140): the cycle-boundary time (in seconds and minutes) and the
accumulated decay counts; every real-valued field of the row is a pure
function of these, embedded as `aggregateR`. -/
structure CycleRow where
  mins : ℕ
  s218 : ℤ
  s214 : ℤ
  time : ℕ
deriving DecidableEq

/-- The mutable state threaded through one iteration of the simulation
loop: the chain populations, the two cycle accumulators `po218_cycle`
and `po214_cycle`, and the grown `po_cycle_table`. -/
structure SimState where
  chain : ChainState
  po218_cycle : ℤ
  po214_cycle : ℤ
  table : List CycleRow
deriving DecidableEq

/-- One iteration of the simulation loop at loop variable `time`
(source lines 97-143): the six `ProgenyDecay` calls (binomial method,
the source's default), the accumulator updates `po218_cycle +=
Po218_gen; po214_cycle += Po214_gen`, the population updates, and the
cycle-boundary block `if time % cycle_time == 0 and time > 0`, which
appends a row built from the current accumulators and resets them. -/
def simStep (cycle_time : ℕ) (source : Bool) (r : Fin 6 → Rand) (time : ℕ)
    (s : SimState) : SimState :=
  let c := s.chain
  let rnC := ProgenyDecay (halflives .Rn222) c.Rn222 (dt : ℚ) .binomial (r 0)
  let po218C := ProgenyDecay (halflives .Po218) c.Po218 (dt : ℚ) .binomial (r 1)
  let pb214C := ProgenyDecay (halflives .Pb214) c.Pb214 (dt : ℚ) .binomial (r 2)
  let bi214C := ProgenyDecay (halflives .Bi214) c.Bi214 (dt : ℚ) .binomial (r 3)
  let po214C := ProgenyDecay (halflives .Po214) c.Po214 (dt : ℚ) .binomial (r 4)
  let pb210C := ProgenyDecay (halflives .Pb210) c.Pb210 (dt : ℚ) .binomial (r 5)
  let Rn222_red := rnC.1
  let Po218_gen := rnC.2
  let Po218_red := po218C.1
  let Pb214_gen := po218C.2
  let Pb214_red := pb214C.1
  let Bi214_gen := pb214C.2
  let Bi214_red := bi214C.1
  let Po214_gen := bi214C.2
  let Po214_red := po214C.1
  let Pb210_gen := po214C.2
  let Pb210_red := pb210C.1
  let po218_cycle := s.po218_cycle + Po218_gen
  let po214_cycle := s.po214_cycle + Po214_gen
  let chain' : ChainState :=
    { Rn222 := if source then c.Rn222 else Rn222_red
      Po218 := Po218_gen + Po218_red
      Pb214 := Pb214_gen + Pb214_red
      Bi214 := Bi214_gen + Bi214_red
      Po214 := Po214_gen + Po214_red
      Pb210 := Pb210_gen + Pb210_red }
  if time % cycle_time = 0 ∧ 0 < time then
    { chain := chain'
      po218_cycle := 0
      po214_cycle := 0
      table := s.table ++
        [{ mins := time / 60, s218 := po218_cycle, s214 := po214_cycle,
           time := time }] }
  else
    { chain := chain'
      po218_cycle := po218_cycle
      po214_cycle := po214_cycle
      table := s.table }

/-- The value list of Python's `range(0, stop, step)` for `step > 0`:
`stop.ceilDiv step` values starting at `0`, spaced `step` apart. -/
def pyRange (stop step : ℕ) : List ℕ :=
  List.range' 0 ((stop + step - 1) / step) step

/-- The simulation loop folded over an explicit list of loop-variable
values; `O t` supplies the six random outcomes of the step at time `t`. -/
def simRunL (cycle_time : ℕ) (source : Bool) (O : ℕ → Fin 6 → Rand)
    (ts : List ℕ) (s : SimState) : SimState :=
  ts.foldl (fun st t => simStep cycle_time source (O t) t st) s

/-- The full simulation loop `for time in range(0, int(simtime), dt)`
(source line 97). -/
def simRun (simtime cycle_time : ℕ) (source : Bool) (O : ℕ → Fin 6 → Rand)
    (s : SimState) : SimState :=
  simRunL cycle_time source O (pyRange simtime dt) s

/-- The state reached after the first `k` iterations of the loop. -/
def runPfx (simtime cycle_time : ℕ) (source : Bool) (O : ℕ → Fin 6 → Rand)
    (s : SimState) (k : ℕ) : SimState :=
  simRunL cycle_time source O ((pyRange simtime dt).take k) s

/-- The state set up before the loop (source lines 85-91): the head
population from the unit converter, every other population and both
accumulators zero, the table empty. -/
def initState (n : ℤ) : SimState where
  chain := { Rn222 := n, Po218 := 0, Pb214 := 0, Bi214 := 0, Po214 := 0,
             Pb210 := 0 }
  po218_cycle := 0
  po214_cycle := 0
  table := []

/-- Detector calibration constant `normal_sens = 0.014` (source line 93). -/
def normal_sens : ℚ := 0.014

/-- Detector calibration constant `sniff_sens = 0.0068` (source line 94). -/
def sniff_sens : ℚ := 0.0068

/-- Calibration scale factor `fudge_factor = 8.7` (source line 95). -/
def fudge_factor : ℚ := 8.7

/-- One fully evaluated row of `po_cycle_table` (source lines 130-140). -/
structure CycleRecordR where
  cycleMins : ℕ
  cpm218 : ℝ
  cpm214 : ℝ
  radon_normal : ℝ
  radon_sniff : ℝ
  radon_normal_err : ℝ
  radon_sniff_err : ℝ
  radon_auto : ℝ
  radon_auto_err : ℝ

/-- The cycle-record construction (source lines 119-140), as a function
of the boundary time and the accumulated counts: the CPM values, the
Sniff and Normal estimates with their ±2σ bounds, and the Auto fields
selected by `time <= 10800`. -/
noncomputable def aggregateR (cycle_time time : ℕ) (s218 s214 : ℤ) :
    CycleRecordR :=
  let cpm_po218 : ℝ := (s218 : ℝ) / ((cycle_time : ℝ) / 60)
  let cpm_po214 : ℝ := (s214 : ℝ) / ((cycle_time : ℝ) / 60)
  let radon_sniff := cpm_po218 / ((sniff_sens : ℝ) * (fudge_factor : ℝ))
  let radon_sniff_err :=
    2 * (1 + Real.sqrt ((s218 : ℝ) + 1)) /
      (((sniff_sens : ℝ) * (fudge_factor : ℝ)) * ((cycle_time : ℝ) / 60))
  let radon_normal :=
    (cpm_po218 + cpm_po214) / ((normal_sens : ℝ) * (fudge_factor : ℝ))
  let radon_normal_err :=
    2 * (1 + Real.sqrt ((s218 : ℝ) + (s214 : ℝ) + 1)) /
      ((normal_sens : ℝ) * (fudge_factor : ℝ) * ((cycle_time : ℝ) / 60))
  { cycleMins := time / 60
    cpm218 := cpm_po218
    cpm214 := cpm_po214
    radon_normal := radon_normal
    radon_sniff := radon_sniff
    radon_normal_err := radon_normal_err
    radon_sniff_err := radon_sniff_err
    radon_auto := if time ≤ 10800 then radon_sniff else radon_normal
    radon_auto_err := if time ≤ 10800 then radon_sniff_err else radon_normal_err }

/-- The fully evaluated cycle table of a finished run. -/
noncomputable def emittedRecords (cycle_time : ℕ) (s : SimState) :
    List CycleRecordR :=
  s.table.map fun row => aggregateR cycle_time row.time row.s218 row.s214

/-- The number of loop iterations, `len(range(0, simtime, dt))`. -/
def nSteps (simtime : ℕ) : ℕ := (simtime + dt - 1) / dt

/-- The value `Po218_gen` of one step (source line 98): the decays of the
`ProgenyDecay` call on the Rn222 population, added to `po218_cycle`. -/
def po218Gen (r : Fin 6 → Rand) (c : ChainState) : ℤ :=
  (ProgenyDecay (halflives .Rn222) c.Rn222 (dt : ℚ) .binomial (r 0)).2

/-- The value `Po214_gen` of one step (source line 101): the decays of the
`ProgenyDecay` call on the Bi214 population, added to `po214_cycle`. -/
def po214Gen (r : Fin 6 → Rand) (c : ChainState) : ℤ :=
  (ProgenyDecay (halflives .Bi214) c.Bi214 (dt : ℚ) .binomial (r 3)).2

/-- The population update of one step (source lines 112-117), isolated
from the accumulator and table bookkeeping. -/
def chainStep (source : Bool) (r : Fin 6 → Rand) (c : ChainState) : ChainState :=
  { Rn222 := if source then c.Rn222
      else (ProgenyDecay (halflives .Rn222) c.Rn222 (dt : ℚ) .binomial (r 0)).1
    Po218 := (ProgenyDecay (halflives .Rn222) c.Rn222 (dt : ℚ) .binomial (r 0)).2 +
      (ProgenyDecay (halflives .Po218) c.Po218 (dt : ℚ) .binomial (r 1)).1
    Pb214 := (ProgenyDecay (halflives .Po218) c.Po218 (dt : ℚ) .binomial (r 1)).2 +
      (ProgenyDecay (halflives .Pb214) c.Pb214 (dt : ℚ) .binomial (r 2)).1
    Bi214 := (ProgenyDecay (halflives .Pb214) c.Pb214 (dt : ℚ) .binomial (r 2)).2 +
      (ProgenyDecay (halflives .Bi214) c.Bi214 (dt : ℚ) .binomial (r 3)).1
    Po214 := (ProgenyDecay (halflives .Bi214) c.Bi214 (dt : ℚ) .binomial (r 3)).2 +
      (ProgenyDecay (halflives .Po214) c.Po214 (dt : ℚ) .binomial (r 4)).1
    Pb210 := (ProgenyDecay (halflives .Po214) c.Po214 (dt : ℚ) .binomial (r 4)).2 +
      (ProgenyDecay (halflives .Pb210) c.Pb210 (dt : ℚ) .binomial (r 5)).1 }

/-- All six populations of a chain state are non-negative. -/
def ChainState.Nonneg (c : ChainState) : Prop :=
  0 ≤ c.Rn222 ∧ 0 ≤ c.Po218 ∧ 0 ≤ c.Pb214 ∧ 0 ≤ c.Bi214 ∧ 0 ≤ c.Po214 ∧
    0 ≤ c.Pb210

/-- The number of Po218 atoms generated during the k-th iteration of a
run, as a function of the trajectory (the `Po218_gen` value the loop
adds to `po218_cycle` at loop index `k`, whose loop variable is `dt * k`). -/
def trajGen218 (simtime cycle_time : ℕ) (source : Bool) (O : ℕ → Fin 6 → Rand)
    (s : SimState) (k : ℕ) : ℤ :=
  po218Gen (O (dt * k)) (runPfx simtime cycle_time source O s k).chain

/-- The number of Po214 atoms generated during the k-th iteration of a
run (the `Po214_gen` value the loop adds to `po214_cycle` at loop index
`k`). -/
def trajGen214 (simtime cycle_time : ℕ) (source : Bool) (O : ℕ → Fin 6 → Rand)
    (s : SimState) (k : ℕ) : ℤ :=
  po214Gen (O (dt * k)) (runPfx simtime cycle_time source O s k).chain

/-- The loop indices whose accumulated counts feed the j-th emitted
cycle record, for a cycle of `m` loop iterations: record 0 aggregates
indices `0 … m` (the boundary step's counts are added before the
boundary test fires at index `m`), record `j ≥ 1` aggregates indices
`j*m + 1 … (j+1)*m`. -/
def cycleWindow (m j : ℕ) : Finset ℕ :=
  if j = 0 then Finset.Ico 0 (m + 1) else Finset.Ico (j * m + 1) ((j + 1) * m + 1)

/-- The cycle row the j-th emitted record (0-based) of a run must hold
when the cycle spans `m` loop iterations: its boundary time is the
(j+1)-st multiple of the cycle length, and its sums aggregate the
per-step generation counts over `cycleWindow m j`. -/
def rowSpec (simtime cycle_time m : ℕ) (source : Bool) (O : ℕ → Fin 6 → Rand)
    (s : SimState) (j : ℕ) : CycleRow where
  mins := dt * ((j + 1) * m) / 60
  s218 := ∑ i ∈ cycleWindow m j, trajGen218 simtime cycle_time source O s i
  s214 := ∑ i ∈ cycleWindow m j, trajGen214 simtime cycle_time source O s i
  time := dt * ((j + 1) * m)

/-- Per-isotope binomial samples for the C1 counterexample step: the
Rn222 call decays 2 atoms, the Po218 call decays 1, the Bi214 call
decays 4, every other call decays none. -/
def cexRand : Fin 6 → Rand := fun i =>
  { flips := fun _ => []
    bin := fun _ => if i = 0 then 2 else if i = 1 then 1 else if i = 3 then 4 else 0 }

/-- A concrete pre-step state for the C1 counterexample. -/
def cexState : SimState where
  chain := { Rn222 := 5, Po218 := 3, Pb214 := 0, Bi214 := 7, Po214 := 2, Pb210 := 0 }
  po218_cycle := 0
  po214_cycle := 0
  table := []

/-! ### Helper lemmas about one loop iteration -/

/-- `zeroRand` is a draw the random library can produce. -/
theorem zeroRand_valid : zeroRand.Valid := by
  constructor
  · intro n hn
    simp [zeroRand, Int.toNat_of_nonneg hn]
  · intro n hn
    simpa [zeroRand] using hn

/-- The probability computed at the head of `ProgenyDecay` equals
`ln 2 / halflife * dt`. -/
theorem decayP_eq (thalf dtArg : ℝ) :
    decayP thalf dtArg = Real.log 2 / thalf * dtArg := by
  simp only [decayP, one_div_div]

/-- The population update of a step does not depend on the boundary
branch. -/
theorem simStep_chain (cycle_time : ℕ) (source : Bool) (r : Fin 6 → Rand)
    (t : ℕ) (s : SimState) :
    (simStep cycle_time source r t s).chain = chainStep source r s.chain := by
  simp only [simStep]
  split <;> rfl

/-- A non-boundary iteration only advances the chain and grows the two
accumulators by `Po218_gen` and `Po214_gen`. -/
theorem simStep_not_boundary (cycle_time : ℕ) (source : Bool)
    (r : Fin 6 → Rand) (t : ℕ) (s : SimState)
    (h : ¬(t % cycle_time = 0 ∧ 0 < t)) :
    simStep cycle_time source r t s =
      { chain := chainStep source r s.chain
        po218_cycle := s.po218_cycle + po218Gen r s.chain
        po214_cycle := s.po214_cycle + po214Gen r s.chain
        table := s.table } := by
  simp only [simStep, chainStep, po218Gen, po214Gen]
  rw [if_neg h]

/-- A boundary iteration advances the chain, appends a row holding the
grown accumulators, and resets both accumulators. -/
theorem simStep_boundary (cycle_time : ℕ) (source : Bool)
    (r : Fin 6 → Rand) (t : ℕ) (s : SimState)
    (h : t % cycle_time = 0 ∧ 0 < t) :
    simStep cycle_time source r t s =
      { chain := chainStep source r s.chain
        po218_cycle := 0
        po214_cycle := 0
        table := s.table ++
          [{ mins := t / 60, s218 := s.po218_cycle + po218Gen r s.chain,
             s214 := s.po214_cycle + po214Gen r s.chain, time := t }] } := by
  simp only [simStep, chainStep, po218Gen, po214Gen]
  rw [if_pos h]

/-! ### Claim C3 — the probability handed to the sampler -/

/-- C3 counterexample: for the `'atom'` sampling method the probability
used by the sampler is not always within [0, 1] — at Po214's half-life
1.643e-4 s with dt = 60 s the atom branch compares against
`p = (ln 2 / 1.643e-4) * 60 > 1` without clamping it, so the claim that
the probability used is `clamp((ln2/halflife)*dt, 0, 1) ∈ [0, 1]` fails
at this input. -/
theorem C3_counterexample :
    ¬ (probUsed ((halflives Isotope.Po214 : ℚ) : ℝ) 60 Method.atom ≤ 1) := by
  have hlit : ((halflives Isotope.Po214 : ℚ) : ℝ) = 1.643e-4 := by
    norm_num [halflives]
  simp only [probUsed, decayP, hlit, one_div_div]
  push_neg
  rw [div_mul_eq_mul_div, lt_div_iff₀ (by norm_num : (0:ℝ) < 1.643e-4)]
  nlinarith [Real.log_two_gt_d9]

/-- C3 amended: for every half-life > 0 and dt ≥ 0, the binomial branch
uses exactly `clamp((ln2/halflife)*dt, 0, 1)`, which lies within [0, 1];
the atom branch uses the raw `(ln2/halflife)*dt`, which is non-negative
but may exceed 1 (it is clamped only in the binomial branch). -/
theorem C3_amended (thalf dtArg : ℝ) (h : 0 < thalf) (hdt : 0 ≤ dtArg) :
    probUsed thalf dtArg Method.binomial =
        min 1 (max 0 (Real.log 2 / thalf * dtArg)) ∧
      0 ≤ probUsed thalf dtArg Method.binomial ∧
      probUsed thalf dtArg Method.binomial ≤ 1 ∧
      probUsed thalf dtArg Method.atom = Real.log 2 / thalf * dtArg ∧
      0 ≤ probUsed thalf dtArg Method.atom := by
  have hp : decayP thalf dtArg = Real.log 2 / thalf * dtArg := decayP_eq thalf dtArg
  refine ⟨by simp [probUsed, hp], ?_, ?_, by simp [probUsed, hp], ?_⟩
  · simp [probUsed]
  · simp [probUsed]
  · rw [probUsed, hp]
    exact mul_nonneg (div_nonneg (Real.log_nonneg one_le_two) h.le) hdt

/-- C3 witness: the amended statement instantiated at Po218's half-life
185.88 s and dt = 60 s. -/
theorem C3_witness :
    0 ≤ probUsed 185.88 60 Method.binomial ∧
      probUsed 185.88 60 Method.binomial ≤ 1 ∧
      0 ≤ probUsed 185.88 60 Method.atom :=
  ⟨(C3_amended 185.88 60 (by norm_num) (by norm_num)).2.1,
   (C3_amended 185.88 60 (by norm_num) (by norm_num)).2.2.1,
   (C3_amended 185.88 60 (by norm_num) (by norm_num)).2.2.2.2⟩

/-! ### Claim C4 — per-call conservation and chain inflow -/

/-- C4: every `ProgenyDecay` call with population `N ≥ 0`, under either
sampling method and any random draws, returns a pair with
`survivors + decays = N`; and in every simulation-loop step each
non-head isotope's new population is exactly the parent call's decays
plus its own call's survivors. -/
theorem C4_conservation :
    (∀ (thalf : ℚ) (Ni : ℤ) (dtArg : ℚ) (method : Method) (r : Rand),
        0 ≤ Ni →
        (ProgenyDecay thalf Ni dtArg method r).1 +
          (ProgenyDecay thalf Ni dtArg method r).2 = Ni) ∧
    (∀ (cycle_time : ℕ) (source : Bool) (r : Fin 6 → Rand) (t : ℕ)
        (s : SimState),
        (simStep cycle_time source r t s).chain.Po218 =
            (ProgenyDecay (halflives .Rn222) s.chain.Rn222 (dt : ℚ) .binomial (r 0)).2 +
            (ProgenyDecay (halflives .Po218) s.chain.Po218 (dt : ℚ) .binomial (r 1)).1 ∧
        (simStep cycle_time source r t s).chain.Pb214 =
            (ProgenyDecay (halflives .Po218) s.chain.Po218 (dt : ℚ) .binomial (r 1)).2 +
            (ProgenyDecay (halflives .Pb214) s.chain.Pb214 (dt : ℚ) .binomial (r 2)).1 ∧
        (simStep cycle_time source r t s).chain.Bi214 =
            (ProgenyDecay (halflives .Pb214) s.chain.Pb214 (dt : ℚ) .binomial (r 2)).2 +
            (ProgenyDecay (halflives .Bi214) s.chain.Bi214 (dt : ℚ) .binomial (r 3)).1 ∧
        (simStep cycle_time source r t s).chain.Po214 =
            (ProgenyDecay (halflives .Bi214) s.chain.Bi214 (dt : ℚ) .binomial (r 3)).2 +
            (ProgenyDecay (halflives .Po214) s.chain.Po214 (dt : ℚ) .binomial (r 4)).1 ∧
        (simStep cycle_time source r t s).chain.Pb210 =
            (ProgenyDecay (halflives .Po214) s.chain.Po214 (dt : ℚ) .binomial (r 4)).2 +
            (ProgenyDecay (halflives .Pb210) s.chain.Pb210 (dt : ℚ) .binomial (r 5)).1) := by
  constructor
  · intro thalf Ni dtArg method r _
    cases method <;> simp [ProgenyDecay]
  · intro cycle_time source r t s
    refine ⟨?_, ?_, ?_, ?_, ?_⟩ <;> · simp only [simStep]; split <;> rfl

/-- C4 witness: conservation evaluated at a population of 5 with the
all-zero draw, and the chain-inflow identity at the C1 counterexample
state. -/
theorem C4_witness :
    (ProgenyDecay (halflives .Rn222) 5 (dt : ℚ) .binomial zeroRand).1 +
        (ProgenyDecay (halflives .Rn222) 5 (dt : ℚ) .binomial zeroRand).2 = 5 ∧
      (simStep 300 false cexRand 60 cexState).chain.Po218 =
        (ProgenyDecay (halflives .Rn222) cexState.chain.Rn222 (dt : ℚ) .binomial (cexRand 0)).2 +
        (ProgenyDecay (halflives .Po218) cexState.chain.Po218 (dt : ℚ) .binomial (cexRand 1)).1 :=
  ⟨C4_conservation.1 (halflives .Rn222) 5 (dt : ℚ) .binomial zeroRand (by decide),
   (C4_conservation.2 300 false cexRand 60 cexState).1⟩

/-! ### Claim C7 — the cycle-record formulas -/

/-- C7: every emitted cycle record computes `cpm218 = po218Sum /
cycleMinutes` and `cpm214 = po214Sum / cycleMinutes`; the Sniff estimate
is `cpm218 / (0.0068 * 8.7)`, the Normal estimate is `(cpm218 + cpm214)
/ (0.014 * 8.7)`, and each mode's ±2σ bound is `2 * (1 +
sqrt(totalCounts + 1)) / (sensitivity * 8.7 * cycleMinutes)` with
`totalCounts = po218Sum` for Sniff and `po218Sum + po214Sum` for
Normal. -/
theorem C7_formulas (cycle_time t : ℕ) (s218 s214 : ℤ)
    (hct : 0 < cycle_time) :
    (aggregateR cycle_time t s218 s214).cpm218 =
        (s218 : ℝ) / ((cycle_time : ℝ) / 60) ∧
    (aggregateR cycle_time t s218 s214).cpm214 =
        (s214 : ℝ) / ((cycle_time : ℝ) / 60) ∧
    (aggregateR cycle_time t s218 s214).radon_sniff =
        (aggregateR cycle_time t s218 s214).cpm218 / (0.0068 * 8.7) ∧
    (aggregateR cycle_time t s218 s214).radon_normal =
        ((aggregateR cycle_time t s218 s214).cpm218 +
          (aggregateR cycle_time t s218 s214).cpm214) / (0.014 * 8.7) ∧
    (aggregateR cycle_time t s218 s214).radon_sniff_err =
        2 * (1 + Real.sqrt ((s218 : ℝ) + 1)) /
          (0.0068 * 8.7 * ((cycle_time : ℝ) / 60)) ∧
    (aggregateR cycle_time t s218 s214).radon_normal_err =
        2 * (1 + Real.sqrt ((s218 : ℝ) + (s214 : ℝ) + 1)) /
          (0.014 * 8.7 * ((cycle_time : ℝ) / 60)) := by
  refine ⟨rfl, rfl, ?_, ?_, ?_, ?_⟩ <;>
    · simp only [aggregateR, sniff_sens, normal_sens, fudge_factor]
      norm_num

/-- C7 witness: the formulas instantiated for a 5-minute cycle ending at
t = 300 s with 7 Po218 counts and 4 Po214 counts. -/
theorem C7_witness :
    (aggregateR 300 300 7 4).radon_sniff =
        (aggregateR 300 300 7 4).cpm218 / (0.0068 * 8.7) ∧
      (aggregateR 300 300 7 4).radon_normal =
        ((aggregateR 300 300 7 4).cpm218 + (aggregateR 300 300 7 4).cpm214) /
          (0.014 * 8.7) :=
  ⟨(C7_formulas 300 300 7 4 (by norm_num)).2.2.1,
   (C7_formulas 300 300 7 4 (by norm_num)).2.2.2.1⟩

/-! ### Claim C8 — the unit converter -/

/-- C8: for concentration ≥ 0 and decay constant > 0 the converter
returns `floor(chamberVolume * concentrationBq / λ)` with chamber
volume 1e-3 (Python's `int` truncation coincides with `floor` on the
non-negative argument). -/
theorem C8_floor (ConcBq lam : ℝ) (hc : 0 ≤ ConcBq) (hl : 0 < lam) :
    RAD7_CONC_TO_N ConcBq lam = ⌊(1e-3 : ℝ) * ConcBq / lam⌋ := by
  have hv : ((VOLUME : ℚ) : ℝ) = 1e-3 := by norm_num [VOLUME]
  have hnn : 0 ≤ (VOLUME : ℝ) * ConcBq / lam := by
    apply div_nonneg _ hl.le
    apply mul_nonneg _ hc
    rw [hv]; norm_num
  rw [RAD7_CONC_TO_N, pyInt, if_pos hnn, hv]

/-- C8 witness: the converter applied to 200 Bq/m³ and Rn222's decay
constant returns `floor(1e-3 * 200 / λ_Rn222)`. -/
theorem C8_witness :
    RAD7_CONC_TO_N 200 (dconst Isotope.Rn222) =
      ⌊(1e-3 : ℝ) * 200 / dconst Isotope.Rn222⌋ :=
  C8_floor 200 (dconst Isotope.Rn222) (by norm_num)
    (by
      rw [dconst]
      apply div_pos (Real.log_pos (by norm_num))
      norm_num [halflives])

/-! ### Claim C6 — the Auto-mode switch -/

/-- C6: every cycle record emitted by a run selects, for its Auto
fields, the Sniff estimate and uncertainty when the cycle's end time is
at most 10800 s and the Normal ones otherwise; in particular a cycle
ending exactly at t = 10800 s uses the Sniff formula and one ending at
t = 10860 s uses the Normal formula. -/
theorem C6_auto_switch (simtime cycle_time : ℕ) (source : Bool)
    (O : ℕ → Fin 6 → Rand) (s : SimState) (row : CycleRow)
    (hrow : row ∈ (simRun simtime cycle_time source O s).table) :
    (row.time ≤ 10800 →
        (aggregateR cycle_time row.time row.s218 row.s214).radon_auto =
          (aggregateR cycle_time row.time row.s218 row.s214).radon_sniff ∧
        (aggregateR cycle_time row.time row.s218 row.s214).radon_auto_err =
          (aggregateR cycle_time row.time row.s218 row.s214).radon_sniff_err) ∧
    (10800 < row.time →
        (aggregateR cycle_time row.time row.s218 row.s214).radon_auto =
          (aggregateR cycle_time row.time row.s218 row.s214).radon_normal ∧
        (aggregateR cycle_time row.time row.s218 row.s214).radon_auto_err =
          (aggregateR cycle_time row.time row.s218 row.s214).radon_normal_err) ∧
    (aggregateR cycle_time 10800 row.s218 row.s214).radon_auto =
        (aggregateR cycle_time 10800 row.s218 row.s214).radon_sniff ∧
    (aggregateR cycle_time 10860 row.s218 row.s214).radon_auto =
        (aggregateR cycle_time 10860 row.s218 row.s214).radon_normal := by
  refine ⟨fun ht => ⟨?_, ?_⟩, fun ht => ⟨?_, ?_⟩, ?_, ?_⟩ <;>
    simp only [aggregateR] <;> first
      | (rw [if_pos]; omega)
      | (rw [if_neg]; omega)

/-- C6 witness: a run of 400 s with 300-s cycles and the all-zero draw
emits the row (5 min, 0, 0, 300 s), whose Auto estimate is the Sniff
estimate. -/
theorem C6_witness :
    (aggregateR 300 300 0 0).radon_auto = (aggregateR 300 300 0 0).radon_sniff :=
  ((C6_auto_switch 400 300 false (fun _ _ => zeroRand) (initState 0)
      ⟨5, 0, 0, 300⟩ (by decide)).1 (by norm_num)).1

/-! ### Claim C1 — what the cycle accumulators receive -/

/-- C1 counterexample: the accumulator increments are not the decay
counts of the Po218 and Po214 populations.  At a concrete non-boundary
step in which the Rn222 call decays 2 atoms, the Po218 call decays 1,
the Bi214 call decays 4 and the Po214 call decays 0, `po218_cycle` grows
by 2 (not by the Po218 call's 1) and `po214_cycle` grows by 4 (not by
the Po214 call's 0). -/
theorem C1_counterexample :
    (simStep 300 false cexRand 60 cexState).po218_cycle -
        cexState.po218_cycle ≠
      (ProgenyDecay (halflives .Po218) cexState.chain.Po218 (dt : ℚ)
        .binomial (cexRand 1)).2 ∧
    (simStep 300 false cexRand 60 cexState).po214_cycle -
        cexState.po214_cycle ≠
      (ProgenyDecay (halflives .Po214) cexState.chain.Po214 (dt : ℚ)
        .binomial (cexRand 4)).2 := by
  decide

/-- C1 amended: at every step the accumulators grow by exactly
`Po218_gen` and `Po214_gen` — the decay counts returned for the Rn222
and Bi214 populations (the atoms newly generated as Po218 and Po214
this step), not the decay counts of the Po218 and Po214 populations.
At a boundary step the grown sums are recorded in the appended row and
the accumulators are then reset to zero. -/
theorem C1_amended (cycle_time : ℕ) (source : Bool) (r : Fin 6 → Rand)
    (t : ℕ) (s : SimState) :
    (¬(t % cycle_time = 0 ∧ 0 < t) →
      (simStep cycle_time source r t s).po218_cycle =
          s.po218_cycle + po218Gen r s.chain ∧
      (simStep cycle_time source r t s).po214_cycle =
          s.po214_cycle + po214Gen r s.chain ∧
      (simStep cycle_time source r t s).table = s.table) ∧
    (t % cycle_time = 0 ∧ 0 < t →
      (simStep cycle_time source r t s).table = s.table ++
        [{ mins := t / 60, s218 := s.po218_cycle + po218Gen r s.chain,
           s214 := s.po214_cycle + po214Gen r s.chain, time := t }] ∧
      (simStep cycle_time source r t s).po218_cycle = 0 ∧
      (simStep cycle_time source r t s).po214_cycle = 0) := by
  constructor
  · intro h
    rw [simStep_not_boundary cycle_time source r t s h]
    exact ⟨rfl, rfl, rfl⟩
  · intro h
    rw [simStep_boundary cycle_time source r t s h]
    exact ⟨rfl, rfl, rfl⟩

/-- C1 witness: the amended statement evaluated at the counterexample
step (t = 60 s, not a boundary) and at the boundary step t = 300 s. -/
theorem C1_witness :
    (simStep 300 false cexRand 60 cexState).po218_cycle =
        cexState.po218_cycle + po218Gen cexRand cexState.chain ∧
      (simStep 300 false cexRand 300 cexState).po218_cycle = 0 :=
  ⟨((C1_amended 300 false cexRand 60 cexState).1 (by decide)).1,
   ((C1_amended 300 false cexRand 300 cexState).2 (by decide)).2.1⟩

/-! ### Prefix lemmas for the loop -/

/-- Running zero iterations leaves the state unchanged. -/
theorem runPfx_zero (simtime cycle_time : ℕ) (source : Bool)
    (O : ℕ → Fin 6 → Rand) (s : SimState) :
    runPfx simtime cycle_time source O s 0 = s := rfl

/-- As long as iterations remain, the (k+1)-st prefix state is one
`simStep` at loop variable `dt * k` past the k-th prefix state. -/
theorem runPfx_succ (simtime cycle_time : ℕ) (source : Bool)
    (O : ℕ → Fin 6 → Rand) (s : SimState) (k : ℕ)
    (hk : k < nSteps simtime) :
    runPfx simtime cycle_time source O s (k + 1) =
      simStep cycle_time source (O (dt * k)) (dt * k)
        (runPfx simtime cycle_time source O s k) := by
  have hlen : k < (pyRange simtime dt).length := by
    simpa [pyRange, nSteps] using hk
  have htake : (pyRange simtime dt).take (k + 1) =
      (pyRange simtime dt).take k ++ [dt * k] := by
    rw [List.take_succ, List.getElem?_eq_getElem hlen]
    simp [pyRange, List.getElem_range']
  rw [runPfx, htake, simRunL, List.foldl_append]
  rfl

/-- Past the last iteration the prefix states are constant. -/
theorem runPfx_past (simtime cycle_time : ℕ) (source : Bool)
    (O : ℕ → Fin 6 → Rand) (s : SimState) (k : ℕ)
    (hk : nSteps simtime ≤ k) :
    runPfx simtime cycle_time source O s (k + 1) =
      runPfx simtime cycle_time source O s k := by
  have hlen : (pyRange simtime dt).length ≤ k := by
    simpa [pyRange, nSteps] using hk
  rw [runPfx, runPfx, List.take_of_length_le hlen,
    List.take_of_length_le (hlen.trans k.le_succ)]

/-- The whole run is the prefix of all `nSteps` iterations. -/
theorem simRun_eq_runPfx (simtime cycle_time : ℕ) (source : Bool)
    (O : ℕ → Fin 6 → Rand) (s : SimState) :
    simRun simtime cycle_time source O s =
      runPfx simtime cycle_time source O s (nSteps simtime) := by
  rw [simRun, runPfx, List.take_of_length_le]
  simp [pyRange, nSteps]

/-! ### Claim C5 — the head population -/

/-- C5: with the continuous-source flag on, the head (Rn222) population
at the start of every step equals its initial value; with the flag off
it is non-increasing from each step to the next. -/
theorem C5_head (simtime cycle_time : ℕ) (O : ℕ → Fin 6 → Rand)
    (s : SimState) :
    (∀ k, (runPfx simtime cycle_time true O s k).chain.Rn222 =
        s.chain.Rn222) ∧
    (∀ k, (runPfx simtime cycle_time false O s (k + 1)).chain.Rn222 ≤
        (runPfx simtime cycle_time false O s k).chain.Rn222) := by
  constructor
  · intro k
    induction k with
    | zero => rfl
    | succ k ih =>
      by_cases hk : k < nSteps simtime
      · rw [runPfx_succ simtime cycle_time true O s k hk, simStep_chain]
        simpa [chainStep] using ih
      · rw [runPfx_past simtime cycle_time true O s k (le_of_not_lt hk)]
        exact ih
  · intro k
    by_cases hk : k < nSteps simtime
    · rw [runPfx_succ simtime cycle_time false O s k hk, simStep_chain]
      simp only [chainStep, Bool.false_eq_true, if_false, ProgenyDecay]
      exact sub_le_self _ (Int.ofNat_nonneg _)
    · rw [runPfx_past simtime cycle_time false O s k (le_of_not_lt hk)]

/-! ### Claim C2 — which cycle records a run emits -/

/-- The cycle-end minutes recorded by a run are exactly the loop
variables that pass the boundary test, divided by 60 — independent of
the random draws and the populations. -/
theorem simRunL_table_mins (cycle_time : ℕ) (source : Bool)
    (O : ℕ → Fin 6 → Rand) :
    ∀ (ts : List ℕ) (s : SimState),
      ((simRunL cycle_time source O ts s).table).map CycleRow.mins =
        s.table.map CycleRow.mins ++
          (ts.filter fun t => decide (t % cycle_time = 0 ∧ 0 < t)).map
            (· / 60) := by
  intro ts
  induction ts with
  | nil => intro s; simp [simRunL]
  | cons t ts ih =>
    intro s
    have hstep : simRunL cycle_time source O (t :: ts) s =
        simRunL cycle_time source O ts (simStep cycle_time source (O t) t s) :=
      rfl
    rw [hstep, ih]
    by_cases h : t % cycle_time = 0 ∧ 0 < t
    · rw [simStep_boundary cycle_time source (O t) t s h]
      simp [h, List.filter_cons]
    · rw [simStep_not_boundary cycle_time source (O t) t s h]
      simp [h, List.filter_cons]

/-- C2 counterexample: the run with dt = 60 s, cycleTime = 300 s and
totalDuration = 900 s does not emit 3 cycle records — `range(0, 900,
60)` stops at t = 840, so the boundary t = 900 is never reached and
only the records at 5 and 10 minutes are emitted (2 records). -/
theorem C2_counterexample :
    (simRun 900 300 false (fun _ _ => zeroRand) (initState 0)).table.length ≠
      3 := by
  decide

/-- C2 amended: for dt = 60 s, cycleTime = 300 s and totalDuration =
900 s the loop emits exactly 2 cycle records, at simulated times 5 and
10 minutes — the cycle ending exactly at t = 900 s is never emitted
because the loop runs only while t < totalDuration; and for
totalDuration = 250 s it emits 0 cycle records. -/
theorem C2_amended (source : Bool) (O : ℕ → Fin 6 → Rand) (n : ℤ) :
    (simRun 900 300 source O (initState n)).table.map CycleRow.mins =
      [5, 10] ∧
    (simRun 250 300 source O (initState n)).table = [] := by
  constructor
  · rw [simRun, simRunL_table_mins]
    simp only [initState, List.map_nil, List.nil_append]
    decide
  · have h := simRunL_table_mins 300 source O (pyRange 250 dt) (initState n)
    rw [simRun]
    have h2 : ((simRunL 300 source O (pyRange 250 dt) (initState n)).table).map
        CycleRow.mins = [] := by
      rw [h]
      simp only [initState, List.map_nil, List.nil_append]
      decide
    exact List.map_eq_nil_iff.mp h2

/-! ### Claim C9 — non-negativity -/

/-- The atom-branch loop over one Bernoulli outcome per iteration
decrements its counter at most once per outcome and never increments
it. -/
theorem atomLoop_bounds (l : List Bool) (n : ℤ) :
    n - l.length ≤ List.foldl (fun m b => if b then m - 1 else m) n l ∧
    List.foldl (fun m b => if b then m - 1 else m) n l ≤ n := by
  induction l generalizing n with
  | nil => simp
  | cons b l ih =>
    obtain ⟨h1, h2⟩ := ih (if b then n - 1 else n)
    simp only [List.foldl_cons, List.length_cons]
    cases b <;> simp only [Bool.false_eq_true, if_false, if_true] at h1 h2 ⊢ <;>
      push_cast <;> omega

/-- Either branch of the decay engine returns non-negative survivors
and decays when the population is non-negative and the draws are ones
the random library can produce. -/
theorem ProgenyDecay_nonneg (thalf : ℚ) (Ni : ℤ) (dtArg : ℚ) (method : Method)
    (r : Rand) (hr : r.Valid) (hN : 0 ≤ Ni) :
    0 ≤ (ProgenyDecay thalf Ni dtArg method r).1 ∧
      0 ≤ (ProgenyDecay thalf Ni dtArg method r).2 := by
  cases method with
  | atom =>
    obtain ⟨hlo, hhi⟩ := atomLoop_bounds (r.flips Ni) Ni
    have hlen := hr.1 Ni hN
    simp only [ProgenyDecay]
    omega
  | binomial =>
    have hle := hr.2 Ni hN
    simp only [ProgenyDecay]
    constructor
    · omega
    · exact Int.ofNat_nonneg _

/-- One chain update keeps every population non-negative. -/
theorem chainStep_nonneg (source : Bool) (r : Fin 6 → Rand) (c : ChainState)
    (hr : ∀ i, (r i).Valid) (hc : c.Nonneg) : (chainStep source r c).Nonneg := by
  obtain ⟨h0, h1, h2, h3, h4, h5⟩ := hc
  have P0 := ProgenyDecay_nonneg (halflives .Rn222) c.Rn222 (dt : ℚ) .binomial (r 0) (hr 0) h0
  have P1 := ProgenyDecay_nonneg (halflives .Po218) c.Po218 (dt : ℚ) .binomial (r 1) (hr 1) h1
  have P2 := ProgenyDecay_nonneg (halflives .Pb214) c.Pb214 (dt : ℚ) .binomial (r 2) (hr 2) h2
  have P3 := ProgenyDecay_nonneg (halflives .Bi214) c.Bi214 (dt : ℚ) .binomial (r 3) (hr 3) h3
  have P4 := ProgenyDecay_nonneg (halflives .Po214) c.Po214 (dt : ℚ) .binomial (r 4) (hr 4) h4
  have P5 := ProgenyDecay_nonneg (halflives .Pb210) c.Pb210 (dt : ℚ) .binomial (r 5) (hr 5) h5
  refine ⟨?_, add_nonneg P0.2 P1.1, add_nonneg P1.2 P2.1, add_nonneg P2.2 P3.1,
    add_nonneg P3.2 P4.1, add_nonneg P4.2 P5.1⟩
  simp only [chainStep]
  split
  · exact h0
  · exact P0.1

/-- C9: for any draws the random library can produce, both branches of
the decay engine return non-negative survivor and decay counts on a
non-negative population, and every population stays non-negative at the
start of every step of every run. -/
theorem C9_nonneg :
    (∀ (thalf : ℚ) (Ni : ℤ) (dtArg : ℚ) (method : Method) (r : Rand),
        r.Valid → 0 ≤ Ni →
        0 ≤ (ProgenyDecay thalf Ni dtArg method r).1 ∧
          0 ≤ (ProgenyDecay thalf Ni dtArg method r).2) ∧
    (∀ (simtime cycle_time : ℕ) (source : Bool) (O : ℕ → Fin 6 → Rand)
        (s : SimState),
        (∀ t i, (O t i).Valid) → s.chain.Nonneg →
        ∀ k, (runPfx simtime cycle_time source O s k).chain.Nonneg) := by
  refine ⟨fun thalf Ni dtArg method r hr hN =>
    ProgenyDecay_nonneg thalf Ni dtArg method r hr hN, ?_⟩
  intro simtime cycle_time source O s hO hc k
  induction k with
  | zero => exact hc
  | succ k ih =>
    by_cases hk : k < nSteps simtime
    · rw [runPfx_succ simtime cycle_time source O s k hk, simStep_chain]
      exact chainStep_nonneg source (O (dt * k)) _ (fun i => hO (dt * k) i) ih
    · rw [runPfx_past simtime cycle_time source O s k (le_of_not_lt hk)]
      exact ih

/-- C9 witness: the atom branch on a population of 3 with the all-zero
draw, and the chain after 3 steps of a run started from 5 Rn222
atoms. -/
theorem C9_witness :
    (0 ≤ (ProgenyDecay (halflives .Po218) 3 (dt : ℚ) .atom zeroRand).1 ∧
      0 ≤ (ProgenyDecay (halflives .Po218) 3 (dt : ℚ) .atom zeroRand).2) ∧
    (runPfx 900 300 false (fun _ _ => zeroRand) (initState 5) 3).chain.Nonneg :=
  ⟨C9_nonneg.1 (halflives .Po218) 3 (dt : ℚ) .atom zeroRand zeroRand_valid
      (by decide),
   C9_nonneg.2 900 300 false (fun _ _ => zeroRand) (initState 5)
      (fun _ _ => zeroRand_valid)
      ⟨by decide, by decide, by decide, by decide, by decide, by decide⟩ 3⟩

/-! ### Claim C10 — which steps feed which record -/

/-- Across a stretch of iterations containing no cycle boundary, the
accumulators grow by the per-step generation counts of exactly those
iterations and the table does not change. -/
theorem acc_no_boundary (simtime cycle_time : ℕ) (source : Bool)
    (O : ℕ → Fin 6 → Rand) (s : SimState) (a : ℕ) :
    ∀ j, a + j ≤ nSteps simtime →
    (∀ i, a ≤ i → i < a + j → ¬((dt * i) % cycle_time = 0 ∧ 0 < dt * i)) →
    (runPfx simtime cycle_time source O s (a + j)).po218_cycle =
        (runPfx simtime cycle_time source O s a).po218_cycle +
          ∑ i ∈ Finset.Ico a (a + j),
            trajGen218 simtime cycle_time source O s i ∧
    (runPfx simtime cycle_time source O s (a + j)).po214_cycle =
        (runPfx simtime cycle_time source O s a).po214_cycle +
          ∑ i ∈ Finset.Ico a (a + j),
            trajGen214 simtime cycle_time source O s i ∧
    (runPfx simtime cycle_time source O s (a + j)).table =
        (runPfx simtime cycle_time source O s a).table := by
  intro j
  induction j with
  | zero => intro _ _; simp
  | succ j ih =>
    intro hstop hb
    have hk : a + j < nSteps simtime := by omega
    obtain ⟨i1, i2, i3⟩ := ih (by omega) (fun i h1 h2 => hb i h1 (by omega))
    have hnb := hb (a + j) (by omega) (by omega)
    rw [← Nat.add_assoc,
      runPfx_succ simtime cycle_time source O s (a + j) hk,
      simStep_not_boundary cycle_time source (O (dt * (a + j))) (dt * (a + j))
        (runPfx simtime cycle_time source O s (a + j)) hnb]
    refine ⟨?_, ?_, i3⟩
    · show (runPfx simtime cycle_time source O s (a + j)).po218_cycle +
        po218Gen (O (dt * (a + j)))
          (runPfx simtime cycle_time source O s (a + j)).chain = _
      rw [i1, Finset.sum_Ico_succ_top (Nat.le_add_right a j)]
      rw [add_assoc]
      rfl
    · show (runPfx simtime cycle_time source O s (a + j)).po214_cycle +
        po214Gen (O (dt * (a + j)))
          (runPfx simtime cycle_time source O s (a + j)).chain = _
      rw [i2, Finset.sum_Ico_succ_top (Nat.le_add_right a j)]
      rw [add_assoc]
      rfl

/-- The iteration at a boundary index appends the row holding the
accumulated counts plus its own step's counts, and resets both
accumulators. -/
theorem run_boundary_step (simtime cycle_time : ℕ) (source : Bool)
    (O : ℕ → Fin 6 → Rand) (s : SimState) (k : ℕ)
    (hk : k < nSteps simtime)
    (hb : (dt * k) % cycle_time = 0 ∧ 0 < dt * k) :
    runPfx simtime cycle_time source O s (k + 1) =
      { chain := chainStep source (O (dt * k))
          (runPfx simtime cycle_time source O s k).chain
        po218_cycle := 0
        po214_cycle := 0
        table := (runPfx simtime cycle_time source O s k).table ++
          [{ mins := dt * k / 60
             s218 := (runPfx simtime cycle_time source O s k).po218_cycle +
               trajGen218 simtime cycle_time source O s k
             s214 := (runPfx simtime cycle_time source O s k).po214_cycle +
               trajGen214 simtime cycle_time source O s k
             time := dt * k }] } := by
  rw [runPfx_succ simtime cycle_time source O s k hk,
    simStep_boundary cycle_time source (O (dt * k)) (dt * k)
      (runPfx simtime cycle_time source O s k) hb]
  rfl

/-- When the cycle length is `m` time steps, the boundary test fires at
loop index `i` exactly when `i` is a positive multiple of `m`. -/
theorem boundary_iff (cycle_time m i : ℕ) (hm : 0 < m)
    (hct : cycle_time = dt * m) :
    ((dt * i) % cycle_time = 0 ∧ 0 < dt * i) ↔ (i % m = 0 ∧ 0 < i) := by
  subst hct
  rw [Nat.mul_mod_mul_left]
  simp only [dt]
  omega

/-- Just after the j-th boundary iteration the table holds exactly the
first j specified rows and both accumulators are zero. -/
theorem run_boundary_state (simtime cycle_time m : ℕ) (source : Bool)
    (O : ℕ → Fin 6 → Rand) (n : ℤ) (hm : 0 < m) (hct : cycle_time = dt * m) :
    ∀ j, 1 ≤ j → j * m < nSteps simtime →
    (runPfx simtime cycle_time source O (initState n) (j * m + 1)).table =
        (List.range j).map
          (rowSpec simtime cycle_time m source O (initState n)) ∧
    (runPfx simtime cycle_time source O (initState n) (j * m + 1)).po218_cycle
        = 0 ∧
    (runPfx simtime cycle_time source O (initState n) (j * m + 1)).po214_cycle
        = 0 := by
  intro j
  induction j with
  | zero => omega
  | succ j ih =>
    intro _ hlt
    have hexp : (j + 1) * m = j * m + m := by ring
    rcases Nat.eq_zero_or_pos j with hj0 | hj1
    · -- base case : the first boundary, at index m
      subst hj0
      simp only [Nat.zero_add, one_mul] at hlt ⊢
      have h0m : ∀ i, 0 ≤ i → i < 0 + m →
          ¬((dt * i) % cycle_time = 0 ∧ 0 < dt * i) := by
        intro i _ hi
        rw [boundary_iff cycle_time m i hm hct]
        rintro ⟨hmod, hpos⟩
        rw [Nat.mod_eq_of_lt (by omega)] at hmod
        omega
      obtain ⟨A1, A2, A3⟩ := acc_no_boundary simtime cycle_time source O
        (initState n) 0 m (by omega) h0m
      rw [Nat.zero_add] at A1 A2 A3
      have hB := run_boundary_step simtime cycle_time source O (initState n) m
        hlt (by
          rw [boundary_iff cycle_time m m hm hct]
          exact ⟨Nat.mod_self m, hm⟩)
      rw [hB]
      refine ⟨?_, rfl, rfl⟩
      show (runPfx simtime cycle_time source O (initState n) m).table ++ _ = _
      rw [A3]
      show ([] : List CycleRow) ++ _ = _
      rw [List.nil_append, show List.range 1 = [0] from rfl, List.map_singleton]
      have hs218 : (runPfx simtime cycle_time source O (initState n)
          m).po218_cycle + trajGen218 simtime cycle_time source O (initState n) m
          = ∑ i ∈ cycleWindow m 0,
              trajGen218 simtime cycle_time source O (initState n) i := by
        rw [A1]
        show (0 : ℤ) + _ + _ = _
        rw [zero_add, cycleWindow, if_pos rfl,
          Finset.sum_Ico_succ_top (Nat.zero_le m)]
      have hs214 : (runPfx simtime cycle_time source O (initState n)
          m).po214_cycle + trajGen214 simtime cycle_time source O (initState n) m
          = ∑ i ∈ cycleWindow m 0,
              trajGen214 simtime cycle_time source O (initState n) i := by
        rw [A2]
        show (0 : ℤ) + _ + _ = _
        rw [zero_add, cycleWindow, if_pos rfl,
          Finset.sum_Ico_succ_top (Nat.zero_le m)]
      rw [rowSpec]
      simp only [hs218, hs214, Nat.zero_add, one_mul]
    · -- inductive step : boundary j+1, at index (j+1)*m
      obtain ⟨I1, I2, I3⟩ := ih hj1 (by omega)
      have hnb : ∀ i, j * m + 1 ≤ i → i < j * m + 1 + (m - 1) →
          ¬((dt * i) % cycle_time = 0 ∧ 0 < dt * i) := by
        intro i h1 h2
        rw [boundary_iff cycle_time m i hm hct]
        rintro ⟨hmod, hpos⟩
        obtain ⟨q, rfl⟩ := Nat.dvd_of_mod_eq_zero hmod
        have hq1 : j < q := by
          by_contra hq
          push_neg at hq
          have h3 : m * q ≤ m * j := Nat.mul_le_mul_left m hq
          have h4 : m * j = j * m := Nat.mul_comm m j
          omega
        have hq2 : m * (j + 1) ≤ m * q := Nat.mul_le_mul_left m hq1
        have h5 : m * (j + 1) = j * m + m := by ring
        omega
      obtain ⟨A1, A2, A3⟩ := acc_no_boundary simtime cycle_time source O
        (initState n) (j * m + 1) (m - 1) (by omega) hnb
      have hidx : j * m + 1 + (m - 1) = (j + 1) * m := by omega
      rw [hidx] at A1 A2 A3
      have hB := run_boundary_step simtime cycle_time source O (initState n)
        ((j + 1) * m) hlt (by
          rw [boundary_iff cycle_time m ((j + 1) * m) hm hct]
          exact ⟨Nat.mul_mod_left (j + 1) m, by positivity⟩)
      rw [hB]
      refine ⟨?_, rfl, rfl⟩
      show (runPfx simtime cycle_time source O (initState n)
          ((j + 1) * m)).table ++ _ = _
      rw [A3, I1, List.range_succ, List.map_append, List.map_singleton]
      congr 1
      have hIco : Finset.Ico (j * m + 1) ((j + 1) * m) =
          Finset.Ico (j * m + 1) (j * m + 1 + (m - 1)) := by rw [hidx]
      have hs218 : (runPfx simtime cycle_time source O (initState n)
          ((j + 1) * m)).po218_cycle +
            trajGen218 simtime cycle_time source O (initState n) ((j + 1) * m)
          = ∑ i ∈ cycleWindow m j,
              trajGen218 simtime cycle_time source O (initState n) i := by
        rw [A1, I2, zero_add, cycleWindow, if_neg (by omega),
          Finset.sum_Ico_succ_top (by omega : j * m + 1 ≤ (j + 1) * m)]
      have hs214 : (runPfx simtime cycle_time source O (initState n)
          ((j + 1) * m)).po214_cycle +
            trajGen214 simtime cycle_time source O (initState n) ((j + 1) * m)
          = ∑ i ∈ cycleWindow m j,
              trajGen214 simtime cycle_time source O (initState n) i := by
        rw [A2, I3, zero_add, cycleWindow, if_neg (by omega),
          Finset.sum_Ico_succ_top (by omega : j * m + 1 ≤ (j + 1) * m)]
      rw [rowSpec]
      simp only [hs218, hs214]

/-- C10: in a run whose cycle length is a positive multiple `m` of `dt`
reaching at least two cycle boundaries, the emitted table is exactly the
specified rows: the first record aggregates the generation counts of the
`m + 1` loop iterations at times `0 … cycleTime` inclusive (the boundary
step's counts are accumulated before the boundary test), and every
subsequent record aggregates exactly `m = cycleTime/dt` iterations. -/
theorem C10_windows (simtime cycle_time m : ℕ) (source : Bool)
    (O : ℕ → Fin 6 → Rand) (n : ℤ)
    (hm : 0 < m) (hct : cycle_time = dt * m) (h2 : 2 * m < nSteps simtime) :
    (simRun simtime cycle_time source O (initState n)).table =
      (List.range ((nSteps simtime - 1) / m)).map
        (rowSpec simtime cycle_time m source O (initState n)) ∧
    2 ≤ (nSteps simtime - 1) / m ∧
    (cycleWindow m 0).card = m + 1 ∧
    (∀ j, 1 ≤ j → (cycleWindow m j).card = m) := by
  have hB2 : 2 ≤ (nSteps simtime - 1) / m := by
    rw [Nat.le_div_iff_mul_le hm]
    omega
  have hB1 : 1 ≤ (nSteps simtime - 1) / m := by omega
  have hBm : ((nSteps simtime - 1) / m) * m ≤ nSteps simtime - 1 :=
    Nat.div_mul_le_self (nSteps simtime - 1) m
  have hBlt : ((nSteps simtime - 1) / m) * m < nSteps simtime := by omega
  obtain ⟨M1, M2, M3⟩ := run_boundary_state simtime cycle_time m source O n hm
    hct ((nSteps simtime - 1) / m) hB1 hBlt
  have htail : ∀ i, ((nSteps simtime - 1) / m) * m + 1 ≤ i →
      i < ((nSteps simtime - 1) / m) * m + 1 +
        (nSteps simtime - (((nSteps simtime - 1) / m) * m + 1)) →
      ¬((dt * i) % cycle_time = 0 ∧ 0 < dt * i) := by
    intro i h1 h2i
    rw [boundary_iff cycle_time m i hm hct]
    rintro ⟨hmod, hpos⟩
    obtain ⟨q, rfl⟩ := Nat.dvd_of_mod_eq_zero hmod
    have hqB : (nSteps simtime - 1) / m < q := by
      by_contra hq
      push_neg at hq
      have h3 : m * q ≤ m * ((nSteps simtime - 1) / m) :=
        Nat.mul_le_mul_left m hq
      have h4 : m * ((nSteps simtime - 1) / m) =
          ((nSteps simtime - 1) / m) * m := Nat.mul_comm _ _
      omega
    have h5 : m * ((nSteps simtime - 1) / m + 1) ≤ m * q :=
      Nat.mul_le_mul_left m hqB
    have h7 : ((nSteps simtime - 1) / m + 1) * m ≤ nSteps simtime - 1 := by
      have h8 : m * ((nSteps simtime - 1) / m + 1) =
          ((nSteps simtime - 1) / m + 1) * m := Nat.mul_comm _ _
      omega
    have h9 : (nSteps simtime - 1) / m + 1 ≤ (nSteps simtime - 1) / m :=
      (Nat.le_div_iff_mul_le hm).mpr h7
    omega
  obtain ⟨T1, T2, T3⟩ := acc_no_boundary simtime cycle_time source O
    (initState n) (((nSteps simtime - 1) / m) * m + 1)
    (nSteps simtime - (((nSteps simtime - 1) / m) * m + 1)) (by omega) htail
  have hidx2 : ((nSteps simtime - 1) / m) * m + 1 +
      (nSteps simtime - (((nSteps simtime - 1) / m) * m + 1)) =
      nSteps simtime := by omega
  rw [hidx2] at T3
  refine ⟨?_, hB2, ?_, ?_⟩
  · rw [simRun_eq_runPfx, T3, M1]
  · rw [cycleWindow, if_pos rfl, Nat.card_Ico]
    omega
  · intro j hj
    rw [cycleWindow, if_neg (by omega), Nat.card_Ico]
    have hexp : (j + 1) * m = j * m + m := by ring
    omega

/-- C10 witness: the window characterization instantiated for the
900-second run with 300-second cycles and the all-zero draw. -/
theorem C10_witness :
    (simRun 900 300 false (fun _ _ => zeroRand) (initState 0)).table =
      (List.range ((nSteps 900 - 1) / 5)).map
        (rowSpec 900 300 5 false (fun _ _ => zeroRand) (initState 0)) :=
  (C10_windows 900 300 5 false (fun _ _ => zeroRand) 0 (by norm_num)
    (by decide) (by decide)).1

end RadonSim

